import Mathlib

/-!
Verification of the bitx-sh/config configuration toolkit core:
the deep-merge of configuration fragments, the schema-to-validator
conversion with its cache (packages/core/src/schema/validator.ts),
and the plugin hook dispatch (packages/core/src/plugins.ts).

Untyped JS value trees are embedded as the inductive `Value`; JS objects
are ordered association lists of string keys (insertion order), JS
numbers are rationals so that non-integral values exist.
-/

namespace BitxConfig

/-- An untyped configuration value tree: the JS values that flow through
merge and validation (null, booleans, numbers, strings, arrays, objects).
Objects are ordered key/value lists, mirroring JS object insertion order. -/
inductive Value where
  | null : Value
  | bool (b : Bool) : Value
  | num (q : Rat) : Value
  | str (s : String) : Value
  | arr (elems : List Value) : Value
  | obj (fields : List (String × Value)) : Value

/-- First value bound to key `k` in an object's field list (JS property lookup). -/
def lookupField (k : String) : List (String × Value) → Option Value
  | [] => none
  | (k', v) :: rest => if k' = k then some v else lookupField k rest

/-- `true` iff the value is an object (mapping). -/
def Value.isObj : Value → Bool
  | .obj _ => true
  | _ => false

/-- `true` iff the value is an array (sequence). -/
def Value.isArr : Value → Bool
  | .arr _ => true
  | _ => false

mutual
/-- Modelled from the spec: the ConfigMerger's binary deep merge of a
higher-precedence fragment over a lower-precedence one.  The repository
delegates merging to the external `defu` package (ConfigManager.merge in
packages/core/src/config/index.ts), whose algorithm is not part of this
repository's sources, so the merge rules are taken from the spec: if both
values are mappings, merge key-by-key over the union of keys, recursing
on keys present in both; if both are sequences, the higher-precedence
sequence replaces the lower wholesale; otherwise the higher-precedence
value wins outright. -/
def mergeTwo : Value → Value → Value
  | .obj h, .obj l => .obj (mergeFields h l ++ (l.filter (fun kv => (lookupField kv.1 h).isNone)))
  | .arr h, .arr _ => .arr h
  | h, _ => h

/-- Modelled from the spec: the mapping case of the deep merge.  Each key of
the higher-precedence object keeps its position; a key also present in the
lower-precedence object recurses, a key absent there is kept unchanged. -/
def mergeFields : List (String × Value) → List (String × Value) → List (String × Value)
  | [], _ => []
  | (k, v) :: rest, l =>
      match lookupField k l with
      | some w => (k, mergeTwo v w) :: mergeFields rest l
      | none => (k, v) :: mergeFields rest l
end

/-- Modelled from the spec: `merge` over an ordered sequence of fragments,
highest precedence first; the empty sequence yields an empty fragment. -/
def merge (fragments : List Value) : Value :=
  fragments.foldr (fun f acc => mergeTwo f acc) (.obj [])

/-- First value bound to key `k` in an association list (JS `Map.get` /
property lookup). -/
def lookupKey {α : Type} (k : String) : List (String × α) → Option α
  | [] => none
  | (k', v) :: rest => if k' = k then some v else lookupKey k rest

/-- `true` iff the value is a number. -/
def Value.isNum : Value → Bool
  | .num _ => true
  | _ => false

/-- The `Schema` documents consumed by `SchemaValidator` (types/index.ts plus
the fields `convertToZod` and its helpers read): `type` discriminates the
node kind; `properties`/`required` describe objects, `items` arrays,
`minLength`/`maxLength`/`pattern`/`enum` strings, `minimum`/`maximum`
numbers.  Optional fields absent from a document are `none` (`[]` for the
list-valued ones). -/
inductive Schema where
  | mk (type : String)
       (properties : List (String × Schema))
       (required : List String)
       (items : Option Schema)
       (minLength : Option Nat)
       (maxLength : Option Nat)
       (pattern : Option String)
       (enum : Option (List String))
       (minimum : Option Rat)
       (maximum : Option Rat) : Schema

/-- A path element of a validation error: an object key or an array index
(formatZodErrors copies `err.path` verbatim from the zod issue). -/
inductive PathElem where
  | key (k : String) : PathElem
  | idx (i : Nat) : PathElem
deriving DecidableEq, Repr

/-- One formatted validation error, as produced by
`SchemaValidator.formatZodErrors`: a root-to-failure path and a message. -/
structure ZErr where
  path : List PathElem
  message : String
deriving DecidableEq, Repr

/-- The compiled validators `convertToZod` builds (schema/validator.ts):
`zobject` carries the shape as `(key, field validator, required?)` in
property order — a non-required field is wrapped `.optional()`, encoded
here as the `Bool`; `zarray`, `zstring` (length bounds and regex pattern),
`zenum` (closed literal set), `znumber` (bounds plus an `.int()` flag),
`zboolean`, `znull` and the permissive `zany` fallback. -/
inductive Zs where
  | zobject (shape : List (String × Zs × Bool)) : Zs
  | zarray (item : Zs) : Zs
  | zstring (minL : Option Nat) (maxL : Option Nat) (pat : Option String) : Zs
  | zenum (vals : List String) : Zs
  | znumber (minimum : Option Rat) (maximum : Option Rat) (isInt : Bool) : Zs
  | zboolean : Zs
  | znull : Zs
  | zany : Zs

mutual
/-- `SchemaValidator.convertToZod` (the documented implementation in
schema/validator.ts): dispatch on `schema.type`; `object` and `array`
recurse (`items` missing defaults to `z.any()`); `string` builds length /
pattern constraints but a present `enum` replaces them with `z.enum`;
`number` and `integer` share `createNumberSchema`, the latter adding
`.int()`; unrecognized kinds fall back to the permissive `z.any()`.
JS truthiness of `if (schema.pattern)` makes an empty pattern a no-op. -/
def convertToZod : Schema → Zs
  | .mk t props req items minL maxL pat enm minN maxN =>
      match t with
      | "object" => .zobject (convertProps props req)
      | "array" =>
          .zarray (match items with
            | some s => convertToZod s
            | none => .zany)
      | "string" =>
          match enm with
          | some vs => .zenum vs
          | none =>
              .zstring minL maxL
                (match pat with
                  | none => none
                  | some p => if p = "" then none else some p)
      | "number" => .znumber minN maxN false
      | "integer" => .znumber minN maxN true
      | "boolean" => .zboolean
      | "null" => .znull
      | _ => .zany

/-- `SchemaValidator.createObjectSchema`: convert each declared property in
order, marking it required iff listed in `schema.required`. -/
def convertProps : List (String × Schema) → List String → List (String × Zs × Bool)
  | [], _ => []
  | (k, s) :: rest, req => (k, convertToZod s, req.contains k) :: convertProps rest req
end

mutual
/-- Execution of a compiled zod validator (`safeParse`): either the parsed
data or the full ordered list of issues.  `rt pat s` abstracts JS
`RegExp(pat).test(s)`.  zod semantics: a type mismatch is a single error at
the node's own path; object and array nodes validate every child and
aggregate the children's errors (prefixed with the key / index) in
declaration order; missing required keys report `Required`; optional keys
may be absent; unknown object keys are stripped; string and number
constraint violations each contribute one root-path issue, in the order the
checks were chained. -/
def zparse (rt : String → String → Bool) : Zs → Value → Except (List ZErr) Value
  | .zobject shape, v =>
      match v with
      | .obj kvs =>
          let r := zparseFields rt shape kvs
          if r.1.isEmpty then .ok (.obj r.2) else .error r.1
      | _ => .error [⟨[], "Expected object"⟩]
  | .zarray item, v =>
      match v with
      | .arr xs =>
          let rs := xs.mapIdx (fun i x => (i, zparse rt item x))
          let es := rs.foldr
            (fun p acc =>
              match p.2 with
              | .ok _ => acc
              | .error e => (e.map (fun err => ⟨.idx p.1 :: err.path, err.message⟩)) ++ acc)
            []
          let ds := rs.foldr
            (fun p acc =>
              match p.2 with
              | .ok d => d :: acc
              | .error _ => acc)
            []
          if es.isEmpty then .ok (.arr ds) else .error es
      | _ => .error [⟨[], "Expected array"⟩]
  | .zstring minL maxL pat, v =>
      match v with
      | .str s =>
          let e1 : List ZErr := match minL with
            | some n => if s.length < n then [⟨[], "Too small"⟩] else []
            | none => []
          let e2 : List ZErr := match maxL with
            | some n => if n < s.length then [⟨[], "Too big"⟩] else []
            | none => []
          let e3 : List ZErr := match pat with
            | some p => if rt p s then [] else [⟨[], "Invalid"⟩]
            | none => []
          let es := e1 ++ e2 ++ e3
          if es.isEmpty then .ok (.str s) else .error es
      | _ => .error [⟨[], "Expected string"⟩]
  | .zenum vals, v =>
      match v with
      | .str s =>
          if vals.contains s then .ok (.str s)
          else .error [⟨[], "Invalid enum value"⟩]
      | _ => .error [⟨[], "Invalid enum value"⟩]
  | .znumber minN maxN isInt, v =>
      match v with
      | .num q =>
          let e1 : List ZErr := match minN with
            | some a => if q < a then [⟨[], "Too small"⟩] else []
            | none => []
          let e2 : List ZErr := match maxN with
            | some b => if b < q then [⟨[], "Too big"⟩] else []
            | none => []
          let e3 : List ZErr := if isInt && q.den != 1 then [⟨[], "Expected integer"⟩] else []
          let es := e1 ++ e2 ++ e3
          if es.isEmpty then .ok (.num q) else .error es
      | _ => .error [⟨[], "Expected number"⟩]
  | .zboolean, v =>
      match v with
      | .bool b => .ok (.bool b)
      | _ => .error [⟨[], "Expected boolean"⟩]
  | .znull, v =>
      match v with
      | .null => .ok .null
      | _ => .error [⟨[], "Expected null"⟩]
  | .zany, v => .ok v

def zparseFields (rt : String → String → Bool) :
    List (String × Zs × Bool) → List (String × Value) → List ZErr × List (String × Value)
  | [], _ => ([], [])
  | (k, zs, req) :: rest, kvs =>
      let r := zparseFields rt rest kvs
      match lookupKey k kvs with
      | none => if req then (⟨[.key k], "Required"⟩ :: r.1, r.2) else r
      | some v =>
          match zparse rt zs v with
          | .ok d => (r.1, (k, d) :: r.2)
          | .error e => ((e.map (fun err => ⟨.key k :: err.path, err.message⟩)) ++ r.1, r.2)
end

/-- `ValidationResult` (types/index.ts): success flag, ordered error list,
and the validated data (absent on failure). -/
structure ValidationResult where
  success : Bool
  errors : List ZErr
  data : Option Value

/-- `ValidationOptions` as referenced by `validate`'s signature; the only
documented option is the coercion switch (`schema.coerce` in the config
defaults, `validation.coerce` in PROJECT_SPECS). -/
structure ValidationOptions where
  coerce : Bool

mutual
/-- `JSON.stringify(schema)` as used for the validator cache key: object
fields in declaration order, fields that are `undefined` omitted (string
escaping is not modelled; keys and patterns are emitted verbatim). -/
def serializeSchema : Schema → String
  | .mk t props req items minL maxL pat enm minN maxN =>
      "\x7b\"type\":\"" ++ t ++ "\"" ++
      (match props with
        | [] => ""
        | _ => ",\"properties\":\x7b" ++ serializeProps props ++ "\x7d") ++
      (match req with
        | [] => ""
        | _ => ",\"required\":[" ++ String.intercalate "," (req.map (fun k => "\"" ++ k ++ "\"")) ++ "]") ++
      (match items with
        | none => ""
        | some s => ",\"items\":" ++ serializeSchema s) ++
      (match minL with
        | none => ""
        | some n => ",\"minLength\":" ++ toString n) ++
      (match maxL with
        | none => ""
        | some n => ",\"maxLength\":" ++ toString n) ++
      (match pat with
        | none => ""
        | some p => ",\"pattern\":\"" ++ p ++ "\"") ++
      (match enm with
        | none => ""
        | some vs => ",\"enum\":[" ++ String.intercalate "," (vs.map (fun k => "\"" ++ k ++ "\"")) ++ "]") ++
      (match minN with
        | none => ""
        | some q => ",\"minimum\":" ++ toString q) ++
      (match maxN with
        | none => ""
        | some q => ",\"maximum\":" ++ toString q) ++
      "\x7d"

/-- Serialization of an object's `properties` map, in insertion order. -/
def serializeProps : List (String × Schema) → String
  | [] => ""
  | (k, s) :: rest =>
      "\"" ++ k ++ "\":" ++ serializeSchema s ++
      (match rest with
        | [] => ""
        | _ => "," ++ serializeProps rest)
end

/-- The `SchemaValidator`'s mutable state: the `cache` map from serialized
schema to compiled validator, plus a conversion counter (the spec's
"conversion-counter test double") incremented whenever `convertToZod`
actually runs. -/
structure ValidatorState where
  cache : List (String × Zs)
  conversions : Nat

/-- A fresh `SchemaValidator`: empty cache, no conversions performed. -/
def freshState : ValidatorState := ⟨[], 0⟩

/-- `SchemaValidator.getOrCreateZodSchema`: key the cache by
`JSON.stringify(schema)`; on a hit return the stored validator unchanged,
on a miss convert, store and return. -/
def getOrCreateZodSchema (st : ValidatorState) (s : Schema) : Zs × ValidatorState :=
  let key := serializeSchema s
  match lookupKey key st.cache with
  | some z => (z, st)
  | none =>
      let z := convertToZod s
      (z, ⟨(key, z) :: st.cache, st.conversions + 1⟩)

/-- `SchemaValidator.validate`: obtain the compiled validator through the
cache, run `safeParse`, and package the outcome as a `ValidationResult` —
issues are formatted by `formatZodErrors`, never thrown.  The `options`
argument is accepted but never read by the implementation. -/
def validate (rt : String → String → Bool) (st : ValidatorState) (schema : Schema)
    (d : Value) (_options : ValidationOptions) : ValidationResult × ValidatorState :=
  let r := getOrCreateZodSchema st schema
  match zparse rt r.1 d with
  | .ok out => (⟨true, [], some out⟩, r.2)
  | .error es => (⟨false, es, none⟩, r.2)

/-- Sequential execution of the hooks registered under one name
(`PluginSystem.callHook`'s loop): each hook transforms the ambient state
or fails; a failure is rethrown at once. -/
def runHooks {σ ε : Type} : List (σ → Except ε σ) → σ → Except ε σ
  | [], s => .ok s
  | h :: rest, s =>
      match h s with
      | .ok s' => runHooks rest s'
      | .error e => .error e

/-- `PluginSystem.callHook` (plugins.ts): when no hooks are registered
under `name` it returns at once; otherwise it runs the registered hooks in
registration order, propagating the first failure. -/
def callHook {σ ε : Type} (hooks : List (String × List (σ → Except ε σ)))
    (name : String) (s : σ) : Except ε σ :=
  match lookupKey name hooks with
  | none => .ok s
  | some hs => runHooks hs s

/-- `PluginSystem.unregister`'s registry guard: unregistering a name that is
not in the registry throws; otherwise the plugin is removed. -/
def unregister (registry : List String) (name : String) : Except String (List String) :=
  if registry.contains name then .ok (registry.erase name)
  else .error ("Plugin " ++ name ++ " is not registered")

/-- The schema of the validation-completeness scenario:
object with a string property `x` and a number property `y`, both required. -/
def schemaXY : Schema :=
  .mk "object"
    [("x", .mk "string" [] [] none none none none none none none),
     ("y", .mk "number" [] [] none none none none none none none)]
    ["x", "y"] none none none none none none none

/-- A plain number schema. -/
def schemaNumber : Schema := .mk "number" [] [] none none none none none none none

/-- A string schema constrained to the closed set a, b, c. -/
def schemaEnumABC : Schema :=
  .mk "string" [] [] none none none none (some ["a", "b", "c"]) none none

lemma lookupField_nil (k : String) : lookupField k [] = none := rfl

lemma mergeFields_nil (h : List (String × Value)) : mergeFields h [] = h := by
  induction h with
  | nil => rfl
  | cons kv rest ih =>
      obtain ⟨k, v⟩ := kv
      simp [mergeFields, lookupField, ih]

lemma mergeTwo_empty_right (v : Value) : mergeTwo v (.obj []) = v := by
  cases v <;> simp [mergeTwo, mergeFields_nil]

lemma mergeTwo_empty_left (l : List (String × Value)) :
    mergeTwo (.obj []) (.obj l) = .obj l := by
  have hfil : l.filter (fun kv => (lookupField kv.1 ([] : List (String × Value))).isNone) = l :=
    List.filter_eq_self.mpr (fun kv _ => by simp [lookupField])
  simp only [mergeTwo, mergeFields, hfil, List.nil_append]

lemma lookupField_append (k : String) (A B : List (String × Value)) :
    lookupField k (A ++ B) =
      match lookupField k A with
      | some v => some v
      | none => lookupField k B := by
  induction A with
  | nil => simp [lookupField]
  | cons kv rest ih =>
      obtain ⟨k', v⟩ := kv
      by_cases hk : k' = k <;> simp [lookupField, hk, ih]

lemma lookupField_filter_congr (k : String) (l : List (String × Value))
    (p q : String × Value → Bool)
    (hpq : ∀ kv ∈ l, kv.1 = k → p kv = q kv) :
    lookupField k (l.filter p) = lookupField k (l.filter q) := by
  induction l with
  | nil => rfl
  | cons kv rest ih =>
      obtain ⟨k₁, v₁⟩ := kv
      have hrest : ∀ kv ∈ rest, kv.1 = k → p kv = q kv := by
        intro kv hm hk
        exact hpq kv (by simp [hm]) hk
      by_cases hk : k₁ = k
      · subst hk
        have hpq₁ : p (k₁, v₁) = q (k₁, v₁) := hpq (k₁, v₁) (by simp) rfl
        cases hp : p (k₁, v₁) with
        | true =>
            have hq : q (k₁, v₁) = true := by rw [← hpq₁]; exact hp
            simp [List.filter_cons, hp, hq, lookupField, ih hrest]
        | false =>
            have hq : q (k₁, v₁) = false := by rw [← hpq₁]; exact hp
            simp [List.filter_cons, hp, hq, ih hrest]
      · cases hp : p (k₁, v₁) <;> cases hq : q (k₁, v₁) <;>
          simp [List.filter_cons, hp, hq, lookupField, hk, ih hrest]

/-- Looking up key `k` after the deep merge of two objects sees the union of
the two key sets: a key present in both maps to the recursive merge of the
two values, a key present in only one keeps that value. -/
lemma lookupField_mergeTwo_obj (l : List (String × Value)) (k : String) :
    ∀ h : List (String × Value),
    lookupField k (mergeFields h l ++ l.filter (fun kv => (lookupField kv.1 h).isNone)) =
      match lookupField k h, lookupField k l with
      | some v, some w => some (mergeTwo v w)
      | some v, none => some v
      | none, o => o := by
  intro h
  induction h with
  | nil =>
      have hfil : l.filter (fun kv => (lookupField kv.1 ([] : List (String × Value))).isNone) = l := by
        apply List.filter_eq_self.mpr
        intro kv _
        simp [lookupField]
      simp [mergeFields, hfil, lookupField]
  | cons kv rest ih =>
      obtain ⟨k', v'⟩ := kv
      by_cases hk : k' = k
      · subst hk
        cases hl : lookupField k' l with
        | none => simp [mergeFields, hl, lookupField]
        | some w => simp [mergeFields, hl, lookupField]
      · have hcongr :
            lookupField k (l.filter (fun kv => (lookupField kv.1 ((k', v') :: rest)).isNone)) =
              lookupField k (l.filter (fun kv => (lookupField kv.1 rest).isNone)) := by
          apply lookupField_filter_congr
          intro kv _ hkv
          simp [hkv, lookupField, hk]
        have hstep :
            lookupField k (mergeFields ((k', v') :: rest) l ++
                l.filter (fun kv => (lookupField kv.1 ((k', v') :: rest)).isNone)) =
              lookupField k (mergeFields rest l ++
                l.filter (fun kv => (lookupField kv.1 rest).isNone)) := by
          cases hl : lookupField k' l with
          | none =>
              simp only [mergeFields, hl, List.cons_append]
              rw [show lookupField k ((k', v') :: (mergeFields rest l ++
                    l.filter (fun kv => (lookupField kv.1 ((k', v') :: rest)).isNone)))
                  = lookupField k (mergeFields rest l ++
                    l.filter (fun kv => (lookupField kv.1 ((k', v') :: rest)).isNone)) from by
                simp [lookupField, hk]]
              rw [lookupField_append, lookupField_append, hcongr]
          | some w =>
              simp only [mergeFields, hl, List.cons_append]
              rw [show lookupField k ((k', mergeTwo v' w) :: (mergeFields rest l ++
                    l.filter (fun kv => (lookupField kv.1 ((k', v') :: rest)).isNone)))
                  = lookupField k (mergeFields rest l ++
                    l.filter (fun kv => (lookupField kv.1 ((k', v') :: rest)).isNone)) from by
                simp [lookupField, hk]]
              rw [lookupField_append, lookupField_append, hcongr]
        rw [hstep, ih]
        have hlk : lookupField k ((k', v') :: rest) = lookupField k rest := by
          simp [lookupField, hk]
        rw [hlk]

lemma getOrCreate_hit (st : ValidatorState) (s : Schema) (z : Zs)
    (h : lookupKey (serializeSchema s) st.cache = some z) :
    getOrCreateZodSchema st s = (z, st) := by
  unfold getOrCreateZodSchema
  simp [h]

lemma getOrCreate_lookup (st : ValidatorState) (s : Schema) :
    lookupKey (serializeSchema s) (getOrCreateZodSchema st s).2.cache
      = some (getOrCreateZodSchema st s).1 := by
  unfold getOrCreateZodSchema
  cases hx : lookupKey (serializeSchema s) st.cache <;> simp [hx, lookupKey]

lemma zparse_error_ne_nil (rt : String → String → Bool) (z : Zs) (v : Value)
    (es : List ZErr) (h : zparse rt z v = .error es) : es ≠ [] := by
  intro hnil
  subst hnil
  cases z <;> cases v <;> simp [zparse] at h <;>
    (try split at h) <;> simp_all [List.isEmpty_iff]

/-- C1: combining two fragments at a key in precedence order follows the
per-type rules: two sequences — the higher-precedence one replaces the
lower wholesale; any other mixed combination — the higher-precedence value
wins outright; two mappings — the result is keyed by the union of the two
key sets, recursing on keys present in both and keeping the single value
otherwise; concretely, merging lower-precedence c:[1,2] with
higher-precedence c:[3] yields c:[3], a:2 over a:1 yields a:2, and
b:(x:1) with b:(y:2) deep-merges to b:(x:1,y:2). -/
theorem merge_precedence_rules :
    (∀ h l, mergeTwo (.arr h) (.arr l) = .arr h)
    ∧ (∀ v w : Value, ¬(v.isObj = true ∧ w.isObj = true) →
        ¬(v.isArr = true ∧ w.isArr = true) → mergeTwo v w = v)
    ∧ (∀ h l, mergeTwo (.obj h) (.obj l) =
        .obj (mergeFields h l ++ l.filter (fun kv => (lookupField kv.1 h).isNone)))
    ∧ (∀ h l k,
        lookupField k (mergeFields h l ++ l.filter (fun kv => (lookupField kv.1 h).isNone)) =
          match lookupField k h, lookupField k l with
          | some v, some w => some (mergeTwo v w)
          | some v, none => some v
          | none, o => o)
    ∧ merge [.obj [("a", .num 2)], .obj [("a", .num 1)]] = .obj [("a", .num 2)]
    ∧ merge [.obj [("b", .obj [("x", .num 1)])], .obj [("b", .obj [("y", .num 2)])]] =
        .obj [("b", .obj [("x", .num 1), ("y", .num 2)])]
    ∧ merge [.obj [("c", .arr [.num 3])], .obj [("c", .arr [.num 1, .num 2])]] =
        .obj [("c", .arr [.num 3])] := by
  refine ⟨fun h l => rfl, ?_, fun h l => rfl,
    fun h l k => lookupField_mergeTwo_obj l k h, rfl, rfl, rfl⟩
  intro v w h1 h2
  cases v <;> cases w <;> simp_all [Value.isObj, Value.isArr, mergeTwo]

/-- C1 witness: a scalar-over-scalar combination at a concrete input — the
higher-precedence value wins. -/
theorem merge_precedence_rules_witness :
    mergeTwo (.str "a") (.num 1) = .str "a" :=
  merge_precedence_rules.2.1 (.str "a") (.num 1) (by simp [Value.isObj]) (by simp [Value.isArr])

/-- C8 counterexample: the merge is not associative.  With F = (x:1),
G = [] (a sequence) and H = (y:2): merging (F over G) over H deep-merges F
with H into (x:1, y:2), while F over (G over H) discards H entirely and
yields (x:1). -/
theorem merge_not_associative_cex :
    mergeTwo (mergeTwo (.obj [("x", .num 1)]) (.arr [])) (.obj [("y", .num 2)]) ≠
      mergeTwo (.obj [("x", .num 1)]) (mergeTwo (.arr []) (.obj [("y", .num 2)])) := by
  intro h
  have h1 : mergeTwo (mergeTwo (.obj [("x", .num 1)]) (.arr [])) (.obj [("y", .num 2)]) =
      .obj [("x", .num 1), ("y", .num 2)] := rfl
  have h2 : mergeTwo (.obj [("x", .num 1)]) (mergeTwo (.arr []) (.obj [("y", .num 2)])) =
      .obj [("x", .num 1)] := rfl
  rw [h1, h2] at h
  simp at h

/-- C8 as amended: merging with an empty fragment on either side is the
identity (absent keys contribute nothing), `merge [F] = F` for every
fragment, `merge []` is the empty fragment, and merge is not commutative
(order encodes precedence); associativity, however, fails (see the
counterexample). -/
theorem merge_identity_laws :
    merge [] = .obj []
    ∧ (∀ F, merge [F] = F)
    ∧ (∀ v, mergeTwo v (.obj []) = v)
    ∧ (∀ l, mergeTwo (.obj []) (.obj l) = .obj l)
    ∧ mergeTwo (.obj [("a", .num 2)]) (.obj [("a", .num 1)]) ≠
        mergeTwo (.obj [("a", .num 1)]) (.obj [("a", .num 2)]) := by
  refine ⟨rfl, ?_, mergeTwo_empty_right, mergeTwo_empty_left, ?_⟩
  · intro F
    show mergeTwo F (.obj []) = F
    exact mergeTwo_empty_right F
  · intro h
    have h1 : mergeTwo (.obj [("a", .num 2)]) (.obj [("a", .num 1)]) =
        .obj [("a", .num 2)] := rfl
    have h2 : mergeTwo (.obj [("a", .num 1)]) (.obj [("a", .num 2)]) =
        .obj [("a", .num 1)] := rfl
    rw [h1, h2] at h
    simp at h

/-- C2: getting a validator for the same schema twice returns the same
compiled validator with identical accept/reject behavior on every input,
the second call leaves the state (in particular the conversion counter)
untouched, and the cache key is the schema's serialized structural content,
not object identity: any schema with the same serialization shares the
cached validator without a new conversion. -/
theorem validator_cache_idempotent (st : ValidatorState) (s s' : Schema)
    (rt : String → String → Bool) (d : Value)
    (hs : serializeSchema s' = serializeSchema s) :
    (getOrCreateZodSchema (getOrCreateZodSchema st s).2 s).1 = (getOrCreateZodSchema st s).1
    ∧ (getOrCreateZodSchema (getOrCreateZodSchema st s).2 s).2 = (getOrCreateZodSchema st s).2
    ∧ zparse rt (getOrCreateZodSchema (getOrCreateZodSchema st s).2 s).1 d
        = zparse rt (getOrCreateZodSchema st s).1 d
    ∧ (getOrCreateZodSchema (getOrCreateZodSchema st s).2 s').1 = (getOrCreateZodSchema st s).1
    ∧ (getOrCreateZodSchema (getOrCreateZodSchema st s).2 s').2.conversions
        = (getOrCreateZodSchema st s).2.conversions := by
  have h2 : getOrCreateZodSchema (getOrCreateZodSchema st s).2 s =
      ((getOrCreateZodSchema st s).1, (getOrCreateZodSchema st s).2) :=
    getOrCreate_hit _ _ _ (getOrCreate_lookup st s)
  have h2' : getOrCreateZodSchema (getOrCreateZodSchema st s).2 s' =
      ((getOrCreateZodSchema st s).1, (getOrCreateZodSchema st s).2) :=
    getOrCreate_hit _ _ _ (by rw [hs]; exact getOrCreate_lookup st s)
  refine ⟨by rw [h2], by rw [h2], by rw [h2], by rw [h2'], by rw [h2']⟩

/-- C2 witness: a concrete double get-or-create on a fresh validator. -/
theorem validator_cache_idempotent_witness :
    (getOrCreateZodSchema (getOrCreateZodSchema freshState schemaNumber).2 schemaNumber).1
      = (getOrCreateZodSchema freshState schemaNumber).1 :=
  (validator_cache_idempotent freshState schemaNumber schemaNumber
    (fun _ _ => false) .null rfl).1

/-- C3: validating the empty object against the object schema requiring a
string `x` and a number `y` collects both failures — exactly two errors,
one at path x and one at path y, not just the first. -/
theorem validate_collects_all_errors (rt : String → String → Bool) (opts : ValidationOptions) :
    (validate rt freshState schemaXY (.obj []) opts).1 =
      ⟨false, [⟨[.key "x"], "Required"⟩, ⟨[.key "y"], "Required"⟩], none⟩ := rfl

/-- C4: for every input and schema, validate returns a ValidationResult —
a successful result carries no errors, a failed one carries at least one
error in `errors`; constraint failures are surfaced in the result, never
thrown (the embedded `validate` is a total function into
`ValidationResult`). -/
theorem validate_returns_result (rt : String → String → Bool) (st : ValidatorState)
    (s : Schema) (d : Value) (opts : ValidationOptions) :
    ((validate rt st s d opts).1.success = true ∧ (validate rt st s d opts).1.errors = [])
    ∨ ((validate rt st s d opts).1.success = false ∧ (validate rt st s d opts).1.errors ≠ []) := by
  simp only [validate]
  cases h : zparse rt (getOrCreateZodSchema st s).1 d with
  | ok out => left; exact ⟨rfl, rfl⟩
  | error es =>
      right
      exact ⟨rfl, zparse_error_ne_nil rt _ d es h⟩

/-- C5 (the code as written): validating the string "42" against a number
schema fails with a root type error whether or not the coercion option is
set — `validate` ignores its options argument and the converter never
emits a coercing validator, so no parse-then-revalidate happens. -/
theorem coercion_not_applied (rt : String → String → Bool) :
    (validate rt freshState schemaNumber (.str "42") ⟨true⟩).1 =
      ⟨false, [⟨[], "Expected number"⟩], none⟩
    ∧ (validate rt freshState schemaNumber (.str "42") ⟨false⟩).1 =
      ⟨false, [⟨[], "Expected number"⟩], none⟩ :=
  ⟨rfl, rfl⟩

/-- C6: for a string schema with enumValues present, the compiled validator
is a closed-set membership check, regardless of any length or pattern
constraints (enum takes precedence); a member is accepted, any other value
fails with a single error at the root path; concretely, "b" passes and
"d" fails against the set a, b, c. -/
theorem enum_closed_set :
    (∀ props req items minL maxL pat vs minN maxN,
        convertToZod (.mk "string" props req items minL maxL pat (some vs) minN maxN)
          = .zenum vs)
    ∧ (∀ (rt : String → String → Bool) (vs : List String) (s : String),
        vs.contains s = true → zparse rt (.zenum vs) (.str s) = .ok (.str s))
    ∧ (∀ (rt : String → String → Bool) (vs : List String) (v : Value),
        (∀ s, v = Value.str s → vs.contains s = false) →
        zparse rt (.zenum vs) v = .error [⟨[], "Invalid enum value"⟩])
    ∧ (∀ rt : String → String → Bool,
        (validate rt freshState schemaEnumABC (.str "d") ⟨false⟩).1 =
          ⟨false, [⟨[], "Invalid enum value"⟩], none⟩)
    ∧ (∀ rt : String → String → Bool,
        (validate rt freshState schemaEnumABC (.str "b") ⟨false⟩).1 =
          ⟨true, [], some (.str "b")⟩) := by
  refine ⟨fun _ _ _ _ _ _ _ _ _ => rfl, ?_, ?_, fun _ => rfl, fun _ => rfl⟩
  · intro rt vs s hs
    simp [zparse, hs]
    simpa using hs
  · intro rt vs v hv
    cases v <;> simp [zparse]
    rename_i s
    intro hmem
    have hsf := hv s rfl
    simp at hsf
    exact hsf hmem

/-- C6 witness: the membership check at concrete inputs. -/
theorem enum_closed_set_witness :
    zparse (fun _ _ => false) (.zenum ["a", "b", "c"]) (.str "b") = .ok (.str "b")
    ∧ zparse (fun _ _ => false) (.zenum ["a", "b", "c"]) (.str "d") =
        .error [⟨[], "Invalid enum value"⟩] :=
  ⟨enum_closed_set.2.1 (fun _ _ => false) ["a", "b", "c"] "b" (by decide),
   enum_closed_set.2.2.1 (fun _ _ => false) ["a", "b", "c"] (.str "d")
     (by intro s hs; cases hs; decide)⟩

/-- C7: a `number` schema compiles to a numeric validator and an `integer`
schema to the same with the integer flag; any non-numeric input is
rejected with a root type error; a numeric input passes exactly when it
satisfies the inclusive minimum and maximum bounds and, for `integer`,
is integral. -/
theorem number_integer_validator :
    (∀ props req items minL maxL pat enm minN maxN,
        convertToZod (.mk "number" props req items minL maxL pat enm minN maxN)
          = .znumber minN maxN false
        ∧ convertToZod (.mk "integer" props req items minL maxL pat enm minN maxN)
          = .znumber minN maxN true)
    ∧ (∀ (rt : String → String → Bool) (minN maxN : Option Rat) (isInt : Bool) (v : Value),
        v.isNum = false →
        zparse rt (.znumber minN maxN isInt) v = .error [⟨[], "Expected number"⟩])
    ∧ (∀ (rt : String → String → Bool) (minN maxN : Option Rat) (isInt : Bool) (q : Rat),
        zparse rt (.znumber minN maxN isInt) (.num q) = .ok (.num q) ↔
          ((∀ a, minN = some a → a ≤ q) ∧ (∀ b, maxN = some b → q ≤ b)
            ∧ (isInt = true → q.den = 1))) := by
  refine ⟨fun _ _ _ _ _ _ _ _ _ => ⟨rfl, rfl⟩, ?_, ?_⟩
  · intro rt minN maxN isInt v hv
    cases v <;> simp_all [zparse, Value.isNum]
  · intro rt minN maxN isInt q
    cases minN <;> cases maxN <;> cases isInt <;>
      (simp only [zparse]; split_ifs) <;>
      simp_all [not_lt, List.isEmpty_iff]

/-- C7 witness: a non-numeric input rejected by an integer validator. -/
theorem number_integer_validator_witness :
    zparse (fun _ _ => false) (.znumber none none true) (.str "x")
      = .error [⟨[], "Expected number"⟩] :=
  number_integer_validator.2.1 (fun _ _ => false) none none true (.str "x") rfl

/-- C9: hooks under a name run sequentially in registration order (running
an appended list first runs the prefix, then, from the state it produced,
the suffix); if a hook fails, the error surfaces to the callHook caller
and the remaining hooks never run — the result is the failing hook's error
no matter what hooks follow it. -/
theorem callHook_fail_fast {σ ε : Type} :
    (∀ (xs ys : List (σ → Except ε σ)) (s : σ),
        runHooks (xs ++ ys) s =
          match runHooks xs s with
          | .ok t => runHooks ys t
          | .error e => .error e)
    ∧ (∀ (hooks : List (String × List (σ → Except ε σ))) (name : String)
        (pre post : List (σ → Except ε σ)) (hk : σ → Except ε σ) (s s' : σ) (e : ε),
        lookupKey name hooks = some (pre ++ hk :: post) →
        runHooks pre s = .ok s' → hk s' = .error e →
        callHook hooks name s = .error e) := by
  have happ : ∀ (xs ys : List (σ → Except ε σ)) (s : σ),
      runHooks (xs ++ ys) s =
        match runHooks xs s with
        | .ok t => runHooks ys t
        | .error e => .error e := by
    intro xs
    induction xs with
    | nil => intro ys s; rfl
    | cons f rest ih =>
        intro ys s
        simp only [List.cons_append, runHooks]
        cases f s with
        | ok s1 => exact ih ys s1
        | error e => rfl
  refine ⟨happ, ?_⟩
  intro hooks name pre post hk s s' e hm hpre hfail
  unfold callHook
  rw [hm]
  show runHooks (pre ++ hk :: post) s = .error e
  rw [happ pre (hk :: post) s, hpre]
  simp [runHooks, hfail]

/-- C9 witness: three hooks under one name; the first succeeds, the second
fails, the third never influences the outcome. -/
theorem callHook_fail_fast_witness :
    callHook [("build",
      [fun n : Nat => Except.ok (n + 1),
       fun _ : Nat => (Except.error "boom" : Except String Nat),
       fun n : Nat => Except.ok (n * 2)])] "build" 0 = .error "boom" :=
  callHook_fail_fast.2
    [("build",
      [fun n : Nat => Except.ok (n + 1),
       fun _ : Nat => (Except.error "boom" : Except String Nat),
       fun n : Nat => Except.ok (n * 2)])]
    "build"
    [fun n : Nat => Except.ok (n + 1)]
    [fun n : Nat => Except.ok (n * 2)]
    (fun _ : Nat => (Except.error "boom" : Except String Nat))
    0 1 "boom" rfl rfl rfl

/-- C10: calling a hook name under which nothing is registered is a
successful no-op — the context passes through unchanged and no error is
raised — whereas unregistering an unknown plugin name fails. -/
theorem callHook_unknown_noop {σ ε : Type} :
    (∀ (hooks : List (String × List (σ → Except ε σ))) (name : String) (s : σ),
        lookupKey name hooks = none → callHook hooks name s = .ok s)
    ∧ (∀ (registry : List String) (n : String), registry.contains n = false →
        unregister registry n = .error ("Plugin " ++ n ++ " is not registered")) := by
  constructor
  · intro hooks name s h
    unfold callHook
    rw [h]
  · intro registry n h
    unfold unregister
    rw [h]
    simp

/-- C10 witness: an empty hook map and a registry without the target. -/
theorem callHook_unknown_noop_witness :
    callHook ([] : List (String × List (Nat → Except String Nat))) "missing" 7 = .ok 7
    ∧ unregister ["other"] "ghost" = .error ("Plugin " ++ "ghost" ++ " is not registered") :=
  ⟨(@callHook_unknown_noop Nat String).1 [] "missing" 7 rfl,
   (@callHook_unknown_noop Nat String).2 ["other"] "ghost" (by decide)⟩

end BitxConfig
